import Mathlib

/-!
Verification of the GraphExec workflow engine against its specification.

The definitions below are a shallow embedding of `app/core/engine.py`,
`app/models/schemas.py` and `app/tools/registry.py`. JSON-style dynamic
values are modelled by `Value` (floats are outside the scope of the
claims), dictionaries by association lists, exceptions by `Except String`,
and the asynchronous run task by a fuel-indexed interpreter (`execLoop`),
returning `Option.none` when the fuel is exhausted before termination.
All keys of the state bag are strings, as guaranteed by the JSON transport
that produces initial states and tool results.
-/

namespace GraphExec

/-- Dynamic (JSON-style) values held in node configs and in the run's state
bag: Python `None`, `bool`, `int` and `str`. -/
inductive Value where
  | none
  | bool (b : Bool)
  | int (n : Int)
  | str (s : String)
deriving DecidableEq, Repr

/-- Python `==` on the embedded values: `None == None`, numeric equality
identifies `bool` with `int` (`True == 1`), and values of unrelated types
compare unequal rather than raising. -/
def pyEq : Value → Value → Bool
  | .none, .none => true
  | .bool a, .bool b => a == b
  | .bool a, .int n => (if a then (1 : Int) else 0) == n
  | .int n, .bool b => n == (if b then (1 : Int) else 0)
  | .int a, .int b => a == b
  | .str a, .str b => a == b
  | _, _ => false

/-- The numeric reading Python gives a value in an ordered comparison:
`bool` counts as `0`/`1`, `int` as itself, nothing else is numeric. -/
def pyNum : Value → Option Int
  | .bool b => some (if b then 1 else 0)
  | .int n => some n
  | _ => Option.none

/-- Python's ordered comparison `a < b` / `a > b` on the embedded values:
numbers compare numerically, strings lexicographically, and a comparison
between unrelated types raises `TypeError`. -/
def pyOrd (a b : Value) : Except String Ordering :=
  match a, b with
  | .str x, .str y => .ok (if x < y then .lt else if y < x then .gt else .eq)
  | _, _ =>
    match pyNum a, pyNum b with
    | some x, some y => .ok (if x < y then .lt else if y < x then .gt else .eq)
    | _, _ => .error "TypeError: unsupported comparison between instances"

/-- Python truthiness of the embedded values (`bool(v)`). -/
def truthy : Value → Bool
  | .none => false
  | .bool b => b
  | .int n => n != 0
  | .str s => s ≠ ""

/-- Python `a or b` on the embedded values. -/
def pyOr (a b : Value) : Value :=
  if truthy a then a else b

/-- Python `str(v)` for the embedded values, used in error messages. -/
def pyStr : Value → String
  | .none => "None"
  | .bool b => if b then "True" else "False"
  | .int n => toString n
  | .str s => s

/-- `WorkflowEngine._compare` (engine.py:179-193): `==`/`!=` delegate to
Python equality directly; the four ordering operators return `False`
whenever either operand is `None` and otherwise compare the operands; any
other operator raises `ValueError`. The operator itself arrives from an
untyped config, hence is a `Value`. -/
def compareVals (value : Value) (op : Value) (target : Value) : Except String Bool :=
  if pyEq op (.str "==") then .ok (pyEq value target)
  else if pyEq op (.str "!=") then .ok (!pyEq value target)
  else if pyEq op (.str ">") then
    if value = .none ∨ target = .none then .ok false
    else (pyOrd value target).map (fun o => o == .gt)
  else if pyEq op (.str ">=") then
    if value = .none ∨ target = .none then .ok false
    else (pyOrd value target).map (fun o => o != .lt)
  else if pyEq op (.str "<") then
    if value = .none ∨ target = .none then .ok false
    else (pyOrd value target).map (fun o => o == .lt)
  else if pyEq op (.str "<=") then
    if value = .none ∨ target = .none then .ok false
    else (pyOrd value target).map (fun o => o != .gt)
  else .error ("Unsupported operator '" ++ pyStr op ++ "'")

/-- A Python dict with string keys, including a node's untyped `config`
payload; an explicit JSON `null` entry is stored as `(k, Value.none)`,
distinct from the key being absent. -/
abbrev Dict := List (String × Value)

/-- `d.get(k)`: the stored value, or `None` when the key is absent. -/
def dictGet (d : Dict) (k : String) : Value :=
  (d.lookup k).getD .none

/-- `d.get(k, default)`. -/
def dictGetD (d : Dict) (k : String) (default : Value) : Value :=
  (d.lookup k).getD default

/-- `d[k] = v`: overwrite in place if present, append otherwise
(insertion order preserved, as in a Python dict). -/
def dictSet (d : Dict) (k : String) (v : Value) : Dict :=
  if (d.lookup k).isSome then d.map (fun p => if p.1 = k then (k, v) else p)
  else d ++ [(k, v)]

/-- `d.update(kvs)`: shallow merge, later keys overwriting earlier ones. -/
def dictUpdate (d : Dict) (kvs : Dict) : Dict :=
  kvs.foldl (fun acc p => dictSet acc p.1 p.2) d

/-- `state.get(key)` where `key` is itself an untyped config value: the
state bag's keys are all strings, so a non-string key is never present. -/
def dictGetV (d : Dict) (key : Value) : Value :=
  match key with
  | .str k => dictGet d k
  | _ => .none

/-- `NodeType` (schemas.py:9-12). -/
inductive NodeType where
  | tool
  | conditional
  | loop
deriving DecidableEq, Repr

/-- `NodeDefinition` (schemas.py:15-22): `next` is typed `Optional[str]`
by the pydantic model; `config` is an untyped dict. -/
structure NodeDefinition where
  name : String
  type : NodeType
  next : Option String := Option.none
  config : Dict := []
deriving DecidableEq, Repr

/-- `GraphDefinition` (schemas.py:25-28) before its model validator runs. -/
structure GraphDefinition where
  graph_id : String
  start_at : String
  nodes : List NodeDefinition
deriving DecidableEq, Repr

/-- Membership of an untyped config value in the set of node names
(Python `target not in node_names`): only an equal string is a member. -/
def nameMember (t : Value) (names : List String) : Bool :=
  match t with
  | .str s => names.contains s
  | _ => false

/-- One `config.get(key)` cross-reference check of `validate_graph`
(schemas.py:38-47): a truthy target that is not a known node name is the
violation reported. -/
def checkRef (kind : String) (nodeName : String) (t : Value)
    (names : List String) : Except String Unit :=
  if truthy t ∧ ¬ nameMember t names then
    .error (kind ++ " node '" ++ nodeName ++ "' references unknown node '" ++ pyStr t ++ "'")
  else .ok ()

/-- The type-specific checks of `validate_graph` (schemas.py:38-47): a
conditional node's `on_true` then `on_false`, a loop node's `body` then
`after`; a tool node's type-specific references are not checked. The
source tests the two `if node.type == ...` guards in sequence; a node has
one type, so dispatching on it is the same order of checks. -/
def typeChecks (names : List String) (n : NodeDefinition) : Except String Unit :=
  match n.type with
  | .conditional =>
    match checkRef "Conditional" n.name (dictGet n.config "on_true") names with
    | .error e => .error e
    | .ok _ => checkRef "Conditional" n.name (dictGet n.config "on_false") names
  | .loop =>
    match checkRef "Loop" n.name (dictGet n.config "body") names with
    | .error e => .error e
    | .ok _ => checkRef "Loop" n.name (dictGet n.config "after") names
  | .tool => .ok ()

/-- The per-node checks of `validate_graph` (schemas.py:35-47), in source
order: `next` (when truthy), then the type-specific references. -/
def validateNode (names : List String) (n : NodeDefinition) : Except String Unit :=
  match n.next with
  | some s =>
    if s ≠ "" ∧ ¬ names.contains s then
      .error ("Node '" ++ n.name ++ "' references unknown next node '" ++ s ++ "'")
    else typeChecks names n
  | Option.none => typeChecks names n

/-- The `for node in self.nodes` loop of `validate_graph`
(schemas.py:35-47): stop at the first node whose checks raise. -/
def validateNodes (names : List String) : List NodeDefinition → Except String Unit
  | [] => .ok ()
  | n :: rest =>
    match validateNode names n with
    | .error e => .error e
    | .ok _ => validateNodes names rest

/-- `GraphDefinition.validate_graph` (schemas.py:30-48): collect the set
of node names, reject an unknown `start_at`, then check every node's
cross-references in order, reporting the first violation. -/
def validate_graph (g : GraphDefinition) : Except String Unit :=
  let names := g.nodes.map (fun n => n.name)
  if ¬ names.contains g.start_at then
    .error ("start_at node '" ++ g.start_at ++ "' is not defined")
  else validateNodes names g.nodes

/-- `RunStatus` (schemas.py:67-71). -/
inductive RunStatus where
  | pending
  | running
  | completed
  | failed
deriving DecidableEq, Repr

/-- `LogEntry` (schemas.py:74-78). The source passes the engine's loop
variable `current` as `node`, so the field is kept untyped here; in a
validated graph it is always a node-name string, or `"unknown"` in the
error handler. The `status` field is what the spec calls the phase. -/
structure LogEntry where
  node : Value
  status : String
  detail : Option String := Option.none
  state_snapshot : Dict
deriving DecidableEq, Repr

/-- The messages `_execute` passes to `_notify_subscribers`
(engine.py:83,91,96,99,104). -/
inductive Event where
  | run_started (run_id : String)
  | node_start (node : Value) (state : Dict)
  | node_end (node : Value) (state : Dict)
  | run_completed (run_id : String) (state : Dict)
  | run_failed (run_id : String) (error : String)
deriving DecidableEq, Repr

/-- A subscriber's `asyncio.Queue` (engine.py:118 creates them with
`maxsize=100`): `maxsize = 0` means unbounded, as in asyncio. -/
structure Queue where
  maxsize : Nat
  items : List Event := []
deriving DecidableEq, Repr

/-- `queue.put_nowait(m)`: raises `QueueFull` when a bounded queue is at
capacity, otherwise appends. -/
def put_nowait (q : Queue) (m : Event) : Except Unit Queue :=
  if 0 < q.maxsize ∧ q.maxsize ≤ q.items.length then .error ()
  else .ok { q with items := q.items ++ [m] }

/-- `WorkflowEngine._notify_subscribers` (engine.py:107-112): best-effort
fan-out; a `QueueFull` from one subscriber is swallowed and that queue is
left unchanged. -/
def notifySubscribers (subs : List Queue) (m : Event) : List Queue :=
  subs.map (fun q =>
    match put_nowait q m with
    | .ok q2 => q2
    | .error _ => q)

/-- `RunState` (engine.py:19-29). `events` is not a field of the source
dataclass: it records the sequence of messages the run has passed to
`_notify_subscribers`, as the specification's trace of published events. -/
structure RunState where
  run_id : String
  graph_id : String
  state : Dict
  current_node : Value
  status : RunStatus := .pending
  log : List LogEntry := []
  loop_counts : List (String × Int) := []
  subscribers : List Queue := []
  events : List Event := []
deriving DecidableEq, Repr

/-- One publication: fan the message out to the subscribers and record it
in the run's event trace. -/
def publish (rs : RunState) (m : Event) : RunState :=
  { rs with subscribers := notifySubscribers rs.subscribers m,
            events := rs.events ++ [m] }

/-- `loop_counts.get(name, 0)` (engine.py:169). -/
def countGet (lc : List (String × Int)) (name : String) : Int :=
  (lc.lookup name).getD 0

/-- `loop_counts[name] = v` (engine.py:175). -/
def countSet (lc : List (String × Int)) (name : String) (v : Int) : List (String × Int) :=
  if (lc.lookup name).isSome then lc.map (fun p => if p.1 = name then (name, v) else p)
  else lc ++ [(name, v)]

/-- Python `count >= max_iterations` (engine.py:172) where `count` is an
int and `max_iterations` comes from the untyped config: a non-numeric
bound raises `TypeError`. -/
def countAtCap (count : Int) (maxIterations : Value) : Except String Bool :=
  match pyNum maxIterations with
  | some m => .ok (decide (m ≤ count))
  | Option.none => .error "TypeError: unsupported comparison between instances"

/-- `Optional[str]` fields seen as untyped values (`node.next` used as a
successor). -/
def optStr : Option String → Value
  | some s => .str s
  | Option.none => .none

/-- A registered tool: the externally supplied callable, taking the state
bag and returning a partial update to merge (an empty list for a falsy
return, which the engine treats as a no-op), or raising. -/
abbrev ToolFn := Dict → Except String Dict

/-- `ToolRegistry._tools` (registry.py:8): name-to-callable mapping. -/
abbrev ToolRegistry := List (String × ToolFn)

/-- `WorkflowEngine._invoke_tool` (engine.py:140-146): the registry's
`get` misses for an unregistered (or non-string) name and the engine
raises `ValueError`; a tool's truthy (non-empty) result is shallow-merged
into the state bag, a falsy one is a no-op. -/
def invokeTool (tools : ToolRegistry) (toolName : Value) (state : Dict) :
    Except String Dict :=
  match toolName with
  | .str s =>
    match tools.lookup s with
    | some fn =>
      match fn state with
      | .error e => .error e
      | .ok result =>
        if result.isEmpty then .ok state
        else .ok (dictUpdate state result)
    | Option.none => .error ("Tool '" ++ s ++ "' is not registered")
  | v => .error ("Tool '" ++ pyStr v ++ "' is not registered")

/-- `WorkflowEngine._evaluate_conditional` (engine.py:148-158): missing
`key` raises; otherwise the successor is `on_true` when the comparison
passes, else `on_false or node.next`. -/
def evaluateConditional (node : NodeDefinition) (state : Dict) : Except String Value :=
  let key := dictGet node.config "key"
  let op := dictGetD node.config "op" (.str "==")
  let target := dictGet node.config "value"
  let onTrue := dictGet node.config "on_true"
  let onFalse := dictGet node.config "on_false"
  if key = Value.none then
    .error ("Conditional node '" ++ node.name ++ "' is missing 'key'")
  else
    match compareVals (dictGetV state key) op target with
    | .error e => .error e
    | .ok passed => if passed then .ok onTrue else .ok (pyOr onFalse (optStr node.next))

/-- `WorkflowEngine._evaluate_loop` (engine.py:160-177): missing `key` or
`body` raises; otherwise compare, and — only when the comparison holds, as
Python's `and` short-circuits — test the stored count against
`max_iterations` (default 25): at the cap route to `after` without
incrementing, below it increment and route to `body`; when the comparison
fails route to `after or node.next`. Returns the successor and the updated
`loop_counts`. -/
def evaluateLoop (node : NodeDefinition) (state : Dict)
    (loopCounts : List (String × Int)) : Except String (Value × List (String × Int)) :=
  let key := dictGet node.config "key"
  let op := dictGetD node.config "op" (.str "==")
  let target := dictGet node.config "value"
  let body := dictGet node.config "body"
  let after := dictGet node.config "after"
  let maxIterations := dictGetD node.config "max_iterations" (.int 25)
  if key = Value.none ∨ body = Value.none then
    .error ("Loop node '" ++ node.name ++ "' requires 'key' and 'body'")
  else
    let count := countGet loopCounts node.name
    let value := dictGetV state key
    match compareVals value op target with
    | .error e => .error e
    | .ok continueLoop =>
      if continueLoop then
        match countAtCap count maxIterations with
        | .error e => .error e
        | .ok capped =>
          if capped then .ok (after, loopCounts)
          else .ok (body, countSet loopCounts node.name (count + 1))
      else .ok (pyOr after (optStr node.next), loopCounts)

/-- `WorkflowEngine._execute_node` (engine.py:127-138), dispatch by node
type. The `NodeType` enum is exhaustive, so the source's trailing
`Unsupported node type` raise is unreachable for a well-typed node.
Returns the successor together with the run's updated state bag and loop
counts. -/
def executeNode (tools : ToolRegistry) (node : NodeDefinition) (state : Dict)
    (loopCounts : List (String × Int)) :
    Except String (Value × Dict × List (String × Int)) :=
  match node.type with
  | .tool =>
    let toolName := dictGet node.config "tool"
    if ¬ truthy toolName then
      .error ("Tool node '" ++ node.name ++ "' is missing 'tool' in config")
    else
      match invokeTool tools toolName state with
      | .error e => .error e
      | .ok state2 => .ok (optStr node.next, state2, loopCounts)
  | .conditional =>
    match evaluateConditional node state with
    | .error e => .error e
    | .ok succ => .ok (succ, state, loopCounts)
  | .loop =>
    match evaluateLoop node state loopCounts with
    | .error e => .error e
    | .ok (succ, lc) => .ok (succ, state, lc)

/-- `node_lookup[current]` (engine.py:84,92): the dict comprehension keeps
the last node of a duplicated name; a missing key raises `KeyError`, whose
`str` is the quoted key. -/
def nodeLookup (nodes : List NodeDefinition) (current : Value) : Except String NodeDefinition :=
  match current with
  | .str s =>
    match nodes.reverse.find? (fun n => n.name == s) with
    | some n => .ok n
    | Option.none => .error ("'" ++ s ++ "'")
  | v => .error (pyStr v)

/-- The `except` handler of `_execute` (engine.py:100-105): mark the run
failed, append the error log entry carrying the message and a snapshot of
the current state, clear `current_node`, publish `run_failed`, re-raise. -/
def failRun (rs : RunState) (current : Value) (e : String) : RunState :=
  let rs1 : RunState :=
    { rs with status := .failed,
              log := rs.log ++ [⟨pyOr current (.str "unknown"), "error", some e, rs.state⟩],
              current_node := Value.none }
  publish rs1 (.run_failed rs1.run_id e)

/-- Normal termination of `_execute` (engine.py:97-99): clear
`current_node`, mark completed, publish `run_completed` with the final
state. -/
def finishRun (rs : RunState) : RunState :=
  let rs1 : RunState := { rs with current_node := Value.none, status := .completed }
  publish rs1 (.run_completed rs1.run_id rs1.state)

/-- The head of one loop iteration (engine.py:88-91): record
`current_node`, append the start log entry with a snapshot of the state,
publish `node_start`. -/
def stepVisitStart (current : Value) (rs : RunState) : RunState :=
  let rs1 : RunState := { rs with current_node := current }
  let rs2 : RunState :=
    { rs1 with log := rs1.log ++ [⟨current, "start", Option.none, rs1.state⟩] }
  publish rs2 (.node_start current rs2.state)

/-- The tail of one loop iteration (engine.py:93-96): install the
dispatch's state and loop-count updates, append the end log entry with a
snapshot, publish `node_end`. -/
def stepVisitEnd (node : NodeDefinition) (state2 : Dict) (lc2 : List (String × Int))
    (rs : RunState) : RunState :=
  let rs4 : RunState := { rs with state := state2, loop_counts := lc2 }
  let rs5 : RunState :=
    { rs4 with log := rs4.log ++ [⟨.str node.name, "end", Option.none, rs4.state⟩] }
  publish rs5 (.node_end (.str node.name) rs5.state)

/-- The `while current` loop of `_execute` (engine.py:86-105), indexed by
fuel (`Option.none` = fuel exhausted before termination). Each iteration:
the visit head (`stepVisitStart`), node lookup, dispatch, the visit tail
(`stepVisitEnd`), then continue with the successor. An exception from the
lookup or the dispatch transfers to the handler `failRun`, and the
re-raised message is returned alongside the final `RunState`. -/
def execLoop (tools : ToolRegistry) (nodes : List NodeDefinition) :
    Nat → Value → RunState → Option (RunState × Option String)
  | 0, current, rs =>
    if truthy current then Option.none else some (finishRun rs, Option.none)
  | fuel + 1, current, rs =>
    if truthy current then
      let rs3 := stepVisitStart current rs
      match nodeLookup nodes current with
      | .error e => some (failRun rs3 current e, some e)
      | .ok node =>
        match executeNode tools node rs3.state rs3.loop_counts with
        | .error e => some (failRun rs3 current e, some e)
        | .ok (succ, state2, lc2) =>
          execLoop tools nodes fuel succ (stepVisitEnd node state2 lc2 rs3)
    else some (finishRun rs, Option.none)

/-- `WorkflowEngine._execute` (engine.py:81-105): mark the run running,
publish `run_started`, then interpret from `graph.start_at`. -/
def execute (tools : ToolRegistry) (graph : GraphDefinition) (fuel : Nat)
    (rs : RunState) : Option (RunState × Option String) :=
  let rs1 : RunState := { rs with status := .running }
  let rs2 := publish rs1 (.run_started rs1.run_id)
  execLoop tools graph.nodes fuel (.str graph.start_at) rs2

/-- The `RunState` `run_graph` creates (engine.py:52): pending, positioned
at `start_at`, with a copy of the initial state. -/
def initialRunState (run_id : String) (graph : GraphDefinition) (initial : Dict) : RunState :=
  { run_id := run_id, graph_id := graph.graph_id, state := initial,
    current_node := .str graph.start_at }

/-! ### Concrete instances used by the scenario claims -/

/-- The `double` tool of the specification's scenario: sets `x = x * 2`. -/
def doubleTool : ToolFn := fun s =>
  match dictGet s "x" with
  | .int n => .ok [("x", .int (2 * n))]
  | _ => .error "unsupported operand type for double"

def scenarioTools : ToolRegistry := [("double", doubleTool)]

/-- The scenario graph `A --(tool:double)--> B --(conditional: x>=10 ?
end : A)`: `B` has no `on_true`, so a passing comparison ends the run. -/
def scenarioGraph : GraphDefinition :=
  { graph_id := "double_loop", start_at := "A",
    nodes :=
      [ { name := "A", type := .tool, next := some "B",
          config := [("tool", .str "double")] },
        { name := "B", type := .conditional,
          config := [("key", .str "x"), ("op", .str ">="), ("value", .int 10),
                     ("on_false", .str "A")] } ] }

/-- The scenario run from initial state `x = 3`. -/
def scenarioRun : Option (RunState × Option String) :=
  execute scenarioTools scenarioGraph 20
    (initialRunState "run-1" scenarioGraph [("x", .int 3)])

/-- A loop node with `op` and `max_iterations` left to their defaults,
used to exercise the body-dispatch branch. -/
def loopWitnessNode : NodeDefinition :=
  { name := "L", type := .loop,
    config := [("key", .str "x"), ("value", .int 1), ("body", .str "B")] }

/-- A loop node whose `max_iterations` is 0: its cap is hit on the very
first visit while the condition still holds. -/
def cappedLoopNode : NodeDefinition :=
  { name := "L", type := .loop,
    config := [("key", .str "x"), ("value", .int 1), ("body", .str "B"),
               ("max_iterations", .int 0)] }

/-- A self-loop graph capped at one iteration: `L` re-enters itself once,
then the guard forces the (absent) `after` branch and the run completes. -/
def cappedLoopGraph : GraphDefinition :=
  { graph_id := "capped", start_at := "L",
    nodes :=
      [ { name := "L", type := .loop,
          config := [("key", .str "x"), ("value", .int 1), ("body", .str "L"),
                     ("max_iterations", .int 1)] } ] }

/-- A graph definition with two nodes of the same name. -/
def dupGraph : GraphDefinition :=
  { graph_id := "dup", start_at := "a",
    nodes :=
      [ { name := "a", type := .tool, config := [("tool", .str "t")] },
        { name := "a", type := .tool, config := [("tool", .str "u")] } ] }

/-- The final `RunState` of running `cappedLoopGraph` from `x = 1` with
fuel 5: the self-loop runs its body once, then the cap forces the absent
`after` branch and the run completes with the count stored at 1. -/
def cappedLoopFinal : RunState :=
  { run_id := "r", graph_id := "capped",
    state := [("x", .int 1)],
    current_node := Value.none,
    status := .completed,
    log := [⟨.str "L", "start", Option.none, [("x", .int 1)]⟩,
            ⟨.str "L", "end", Option.none, [("x", .int 1)]⟩,
            ⟨.str "L", "start", Option.none, [("x", .int 1)]⟩,
            ⟨.str "L", "end", Option.none, [("x", .int 1)]⟩],
    loop_counts := [("L", 1)],
    subscribers := [],
    events := [.run_started "r",
               .node_start (.str "L") [("x", .int 1)],
               .node_end (.str "L") [("x", .int 1)],
               .node_start (.str "L") [("x", .int 1)],
               .node_end (.str "L") [("x", .int 1)],
               .run_completed "r" [("x", .int 1)]] }

/-- A graph whose single tool node names a tool that is never
registered. -/
def failGraph : GraphDefinition :=
  { graph_id := "gf", start_at := "A",
    nodes := [ { name := "A", type := .tool, config := [("tool", .str "nosuch")] } ] }

/-- The final `RunState` of running `failGraph` with an empty registry:
the dispatch raises, the run fails, and the error entry names the missing
tool. -/
def failFinal : RunState :=
  { run_id := "r", graph_id := "gf",
    state := [],
    current_node := Value.none,
    status := .failed,
    log := [⟨.str "A", "start", Option.none, []⟩,
            ⟨.str "A", "error", some "Tool 'nosuch' is not registered", []⟩],
    loop_counts := [],
    subscribers := [],
    events := [.run_started "r",
               .node_start (.str "A") [],
               .run_failed "r" "Tool 'nosuch' is not registered"] }

/-! ### Trace structure of one run -/

/-- One node visit as observed in the log and the event trace: the node
(as the engine's loop variable holds it) and the state snapshots before
and after its dispatch. -/
abbrev Visit := Value × Dict × Dict

/-- The two events a completed visit publishes. -/
def visitEvents (v : Visit) : List Event :=
  [Event.node_start v.1 v.2.1, Event.node_end v.1 v.2.2]

/-- The two log entries a completed visit appends. -/
def visitLog (v : Visit) : List LogEntry :=
  [⟨v.1, "start", Option.none, v.2.1⟩, ⟨v.1, "end", Option.none, v.2.2⟩]

/-- The snapshots of consecutive visits chain: each visit starts from the
state the previous one ended in, and the last one ends in the given final
state. -/
def chainOk : Dict → List Visit → Dict → Prop
  | s, [], t => s = t
  | s, v :: vs, t => v.2.1 = s ∧ chainOk v.2.2 vs t

/-- C5's invariant on `loop_counts`: every stored count belongs to a loop
node resolvable under its name and stays at or below that node's numeric
`max_iterations` (default 25). -/
def loopCountsBounded (nodes : List NodeDefinition) (lc : List (String × Int)) : Prop :=
  ∀ name v, lc.lookup name = some v →
    ∃ node m, nodeLookup nodes (.str name) = .ok node ∧
      pyNum (dictGetD node.config "max_iterations" (.int 25)) = some m ∧ v ≤ m

/-! ### The aliasing model of state snapshots

Python dicts are reference values: `dict(run_state.state)` duplicates only
the top-level key/value pairs, and a nested dict stays shared between the
live state bag and every snapshot that was taken while it was reachable.
The engine itself only rebinds top-level keys (`state.update`), but a tool
receives the live bag and may mutate a nested object in place. -/

/-- A value held in the state bag: an immutable primitive, or a reference
to a mutable nested object living in the heap. -/
inductive HValue where
  | prim (v : Value)
  | ref (r : Nat)
deriving DecidableEq, Repr

/-- The state bag with reference values. -/
abbrev HDict := List (String × HValue)

/-- The heap of nested objects: cell `r` holds the contents of the nested
dict that references `HValue.ref r` point to (one nesting level suffices
for the claims). -/
abbrev Heap := List (List (String × Value))

/-- What a value reads as once resolved against the current heap. -/
inductive DeepValue where
  | prim (v : Value)
  | dict (d : List (String × Value))
deriving DecidableEq, Repr

def resolveHValue (h : Heap) : HValue → DeepValue
  | .prim v => .prim v
  | .ref r => .dict (h.getD r [])

/-- Reading a dict fully, under the current heap. -/
def resolveDict (h : Heap) (s : HDict) : List (String × DeepValue) :=
  s.map (fun p => (p.1, resolveHValue h p.2))

/-- `dict(run_state.state)` (engine.py:89,94,102): a shallow copy — the
top-level association pairs are duplicated, the nested objects they
reference stay shared. -/
def snapshotShallow (s : HDict) : HDict := s

/-- The snapshot the spec's words describe (a deep snapshot of `state` at
that instant): nested objects are materialised at snapshot time, so later
heap writes cannot reach it. Stated for comparison with
`snapshotShallow`; this is not what the source computes. -/
def deepSnapshot (h : Heap) (s : HDict) : List (String × DeepValue) :=
  resolveDict h s

/-- An in-place mutation of the nested object in cell `r` (e.g. a tool
running an item assignment on a nested dict of the live state bag). -/
def heapWrite (h : Heap) (r : Nat) (d : List (String × Value)) : Heap :=
  h.set r d

/-- The concrete aliasing scenario: the state bag holds one nested object
`obj` with `y = 1`; a tool then mutates `obj.y` to `2` in place. -/
def aliasState : HDict := [("obj", .ref 0)]

def aliasHeap : Heap := [[("y", .int 1)]]

def aliasHeapMutated : Heap := heapWrite aliasHeap 0 [("y", .int 2)]

/-! ### Basic lemmas about the embedded primitives -/

lemma pyEq_str_right_iff (v : Value) (s : String) : pyEq v (.str s) = true ↔ v = .str s := by
  cases v <;> simp [pyEq]

lemma pyEq_str_right_false {v : Value} {s : String} (h : v ≠ .str s) :
    pyEq v (.str s) = false := by
  rw [Bool.eq_false_iff]
  intro hc
  exact h ((pyEq_str_right_iff v s).mp hc)

@[simp] lemma publish_run_id (rs : RunState) (m : Event) : (publish rs m).run_id = rs.run_id := rfl

@[simp] lemma publish_state (rs : RunState) (m : Event) : (publish rs m).state = rs.state := rfl

@[simp] lemma publish_status (rs : RunState) (m : Event) : (publish rs m).status = rs.status := rfl

@[simp] lemma publish_log (rs : RunState) (m : Event) : (publish rs m).log = rs.log := rfl

@[simp] lemma publish_loop_counts (rs : RunState) (m : Event) :
    (publish rs m).loop_counts = rs.loop_counts := rfl

@[simp] lemma publish_current_node (rs : RunState) (m : Event) :
    (publish rs m).current_node = rs.current_node := rfl

@[simp] lemma publish_events (rs : RunState) (m : Event) :
    (publish rs m).events = rs.events ++ [m] := rfl

@[simp] lemma stepVisitStart_run_id (c : Value) (rs : RunState) :
    (stepVisitStart c rs).run_id = rs.run_id := rfl

@[simp] lemma stepVisitStart_status (c : Value) (rs : RunState) :
    (stepVisitStart c rs).status = rs.status := rfl

@[simp] lemma stepVisitStart_state (c : Value) (rs : RunState) :
    (stepVisitStart c rs).state = rs.state := rfl

@[simp] lemma stepVisitStart_loop_counts (c : Value) (rs : RunState) :
    (stepVisitStart c rs).loop_counts = rs.loop_counts := rfl

@[simp] lemma stepVisitStart_log (c : Value) (rs : RunState) :
    (stepVisitStart c rs).log = rs.log ++ [⟨c, "start", Option.none, rs.state⟩] := rfl

@[simp] lemma stepVisitStart_events (c : Value) (rs : RunState) :
    (stepVisitStart c rs).events = rs.events ++ [Event.node_start c rs.state] := rfl

@[simp] lemma stepVisitEnd_run_id (n : NodeDefinition) (st : Dict)
    (lc : List (String × Int)) (rs : RunState) :
    (stepVisitEnd n st lc rs).run_id = rs.run_id := rfl

@[simp] lemma stepVisitEnd_status (n : NodeDefinition) (st : Dict)
    (lc : List (String × Int)) (rs : RunState) :
    (stepVisitEnd n st lc rs).status = rs.status := rfl

@[simp] lemma stepVisitEnd_state (n : NodeDefinition) (st : Dict)
    (lc : List (String × Int)) (rs : RunState) :
    (stepVisitEnd n st lc rs).state = st := rfl

@[simp] lemma stepVisitEnd_loop_counts (n : NodeDefinition) (st : Dict)
    (lc : List (String × Int)) (rs : RunState) :
    (stepVisitEnd n st lc rs).loop_counts = lc := rfl

@[simp] lemma stepVisitEnd_log (n : NodeDefinition) (st : Dict)
    (lc : List (String × Int)) (rs : RunState) :
    (stepVisitEnd n st lc rs).log =
      rs.log ++ [⟨.str n.name, "end", Option.none, st⟩] := rfl

@[simp] lemma stepVisitEnd_events (n : NodeDefinition) (st : Dict)
    (lc : List (String × Int)) (rs : RunState) :
    (stepVisitEnd n st lc rs).events = rs.events ++ [Event.node_end (.str n.name) st] := rfl

@[simp] lemma failRun_run_id (rs : RunState) (c : Value) (e : String) :
    (failRun rs c e).run_id = rs.run_id := rfl

@[simp] lemma failRun_status (rs : RunState) (c : Value) (e : String) :
    (failRun rs c e).status = RunStatus.failed := rfl

@[simp] lemma failRun_current_node (rs : RunState) (c : Value) (e : String) :
    (failRun rs c e).current_node = Value.none := rfl

@[simp] lemma failRun_state (rs : RunState) (c : Value) (e : String) :
    (failRun rs c e).state = rs.state := rfl

@[simp] lemma failRun_loop_counts (rs : RunState) (c : Value) (e : String) :
    (failRun rs c e).loop_counts = rs.loop_counts := rfl

@[simp] lemma failRun_log (rs : RunState) (c : Value) (e : String) :
    (failRun rs c e).log =
      rs.log ++ [⟨pyOr c (.str "unknown"), "error", some e, rs.state⟩] := rfl

@[simp] lemma failRun_events (rs : RunState) (c : Value) (e : String) :
    (failRun rs c e).events = rs.events ++ [Event.run_failed rs.run_id e] := rfl

@[simp] lemma finishRun_run_id (rs : RunState) : (finishRun rs).run_id = rs.run_id := rfl

@[simp] lemma finishRun_status (rs : RunState) :
    (finishRun rs).status = RunStatus.completed := rfl

@[simp] lemma finishRun_current_node (rs : RunState) :
    (finishRun rs).current_node = Value.none := rfl

@[simp] lemma finishRun_state (rs : RunState) : (finishRun rs).state = rs.state := rfl

@[simp] lemma finishRun_loop_counts (rs : RunState) :
    (finishRun rs).loop_counts = rs.loop_counts := rfl

@[simp] lemma finishRun_log (rs : RunState) : (finishRun rs).log = rs.log := rfl

@[simp] lemma finishRun_events (rs : RunState) :
    (finishRun rs).events = rs.events ++ [Event.run_completed rs.run_id rs.state] := rfl

lemma nodeLookup_ok_name {nodes : List NodeDefinition} {node : NodeDefinition}
    {current : Value} (h : nodeLookup nodes current = .ok node) :
    current = .str node.name := by
  cases current with
  | str s =>
    simp only [nodeLookup] at h
    cases hf : nodes.reverse.find? (fun n => n.name == s) with
    | none => rw [hf] at h; exact absurd h (by simp)
    | some m =>
      rw [hf] at h
      have hname := List.find?_some hf
      cases h
      have hs : node.name = s := by simpa using hname
      rw [hs]
  | none => simp [nodeLookup] at h
  | bool b => simp [nodeLookup] at h
  | int n => simp [nodeLookup] at h

end GraphExec

namespace GraphExec

/-- C2. Comparison semantics of `_compare`: `==`/`!=` return the direct
(in)equality of the operands, including when either is `None`; each of the
four ordering operators returns `false` (rather than raising) whenever
either operand is `None`; any operator outside the six raises
`ValueError`; and in particular an absent value compared with `>` against
`5` evaluates to `false`. -/
theorem compare_semantics (v t : Value) :
    compareVals v (.str "==") t = .ok (pyEq v t) ∧
    compareVals v (.str "!=") t = .ok (!pyEq v t) ∧
    (∀ op : String, op ∈ [">", ">=", "<", "<="] →
      v = Value.none ∨ t = Value.none → compareVals v (.str op) t = .ok false) ∧
    (∀ op : Value, (∀ s : String, s ∈ ["==", "!=", ">", ">=", "<", "<="] → op ≠ .str s) →
      compareVals v op t = .error ("Unsupported operator '" ++ pyStr op ++ "'")) ∧
    compareVals Value.none (.str ">") (.int 5) = .ok false := by
  refine ⟨?_, ?_, ?_, ?_, ?_⟩
  · simp [compareVals, pyEq]
  · simp [compareVals, pyEq]
  · intro op hop hnull
    have : op = ">" ∨ op = ">=" ∨ op = "<" ∨ op = "<=" := by simpa using hop
    rcases this with h | h | h | h <;> subst h <;>
      simp [compareVals, pyEq, hnull]
  · intro op hop
    have h1 := pyEq_str_right_false (hop "==" (by simp))
    have h2 := pyEq_str_right_false (hop "!=" (by simp))
    have h3 := pyEq_str_right_false (hop ">" (by simp))
    have h4 := pyEq_str_right_false (hop ">=" (by simp))
    have h5 := pyEq_str_right_false (hop "<" (by simp))
    have h6 := pyEq_str_right_false (hop "<=" (by simp))
    simp [compareVals, h1, h2, h3, h4, h5, h6]
  · rfl

/-- Witness for C2 at concrete operands: `None > 5` is `false` and an
unsupported operator raises. -/
theorem compare_semantics_witness :
    compareVals Value.none (.str ">") (.int 5) = .ok false ∧
    compareVals (.int 1) (.str "~") (.int 2) =
      .error ("Unsupported operator '" ++ pyStr (.str "~") ++ "'") := by
  refine ⟨(compare_semantics Value.none (.int 5)).2.2.2.2, ?_⟩
  exact (compare_semantics (.int 1) (.int 2)).2.2.2.1 (.str "~") (by decide)

/-- C9. `_notify_subscribers` is a total best-effort fan-out: the list of
subscriber channels keeps its length, a full bounded channel is left
unchanged (the `QueueFull` is swallowed, never re-raised to the publishing
run), every other channel receives the message appended, and `publish`
leaves the run's own state, status and log untouched. -/
theorem publish_drop_on_full (subs : List Queue) (m : Event) :
    (notifySubscribers subs m).length = subs.length ∧
    (∀ i : Nat, (notifySubscribers subs m).get? i =
      (subs.get? i).map (fun q =>
        if 0 < q.maxsize ∧ q.maxsize ≤ q.items.length then q
        else { q with items := q.items ++ [m] })) ∧
    (∀ rs : RunState, (publish rs m).status = rs.status ∧ (publish rs m).state = rs.state ∧
      (publish rs m).log = rs.log ∧ (publish rs m).current_node = rs.current_node) := by
  refine ⟨by simp [notifySubscribers], ?_, fun rs => ⟨rfl, rfl, rfl, rfl⟩⟩
  intro i
  simp only [notifySubscribers, List.get?_map]
  cases subs.get? i with
  | none => rfl
  | some q =>
    simp only [Option.map_some']
    by_cases h : 0 < q.maxsize ∧ q.maxsize ≤ q.items.length
    · simp [put_nowait, h]
    · simp [put_nowait, h]

/-- C8. The scenario run: from `x = 3` the graph doubles `x` until the
conditional sees `x >= 10`; it terminates with status `completed`, final
`x = 12`, the loop body `A` is dispatched exactly twice, and the
trajectory of `x` through the log's snapshots is `3 → 6 → 12`. -/
theorem double_loop_scenario :
    (scenarioRun.map fun p =>
      (p.1.status, dictGet p.1.state "x", p.2,
       (p.1.log.filter fun l => l.node == Value.str "A" && l.status == "start").length,
       (p.1.log.map fun l => dictGet l.state_snapshot "x").destutter (· ≠ ·))) =
    some (RunStatus.completed, .int 12, Option.none, 2,
      [.int 3, .int 6, .int 12]) := by
  rfl

/-! ### The acceptance condition of `validate_graph` (C4) -/

lemma checkRef_ok_iff (kind nm : String) (t : Value) (names : List String) :
    checkRef kind nm t names = .ok () ↔ (truthy t = true → nameMember t names = true) := by
  unfold checkRef
  by_cases h : truthy t = true ∧ ¬ nameMember t names = true
  · rw [if_pos h]
    simp only [reduceCtorEq, false_iff]
    exact fun hc => h.2 (hc h.1)
  · rw [if_neg h]
    simp only [true_iff]
    intro ht
    by_contra hm
    exact h ⟨ht, hm⟩

lemma typeChecks_ok_iff (names : List String) (n : NodeDefinition) :
    typeChecks names n = .ok () ↔
      ((n.type = .conditional →
         (truthy (dictGet n.config "on_true") = true →
           nameMember (dictGet n.config "on_true") names = true) ∧
         (truthy (dictGet n.config "on_false") = true →
           nameMember (dictGet n.config "on_false") names = true)) ∧
       (n.type = .loop →
         (truthy (dictGet n.config "body") = true →
           nameMember (dictGet n.config "body") names = true) ∧
         (truthy (dictGet n.config "after") = true →
           nameMember (dictGet n.config "after") names = true))) := by
  cases htype : n.type with
  | tool => simp [typeChecks, htype]
  | conditional =>
    cases hc1 : checkRef "Conditional" n.name (dictGet n.config "on_true") names with
    | error e =>
      simp only [typeChecks, htype, hc1, reduceCtorEq, false_iff]
      intro hr
      have hA := (hr.1 trivial).1
      rw [(checkRef_ok_iff "Conditional" n.name (dictGet n.config "on_true") names).mpr hA]
        at hc1
      exact absurd hc1 (by simp)
    | ok u =>
      cases u
      have hA := (checkRef_ok_iff "Conditional" n.name (dictGet n.config "on_true") names).mp hc1
      simp only [typeChecks, htype, hc1, reduceCtorEq]
      constructor
      · intro hb
        exact ⟨fun _ =>
          ⟨hA, (checkRef_ok_iff "Conditional" n.name (dictGet n.config "on_false") names).mp hb⟩,
          fun h => h.elim⟩
      · intro hr
        exact (checkRef_ok_iff "Conditional" n.name (dictGet n.config "on_false") names).mpr
          (hr.1 trivial).2
  | loop =>
    cases hc1 : checkRef "Loop" n.name (dictGet n.config "body") names with
    | error e =>
      simp only [typeChecks, htype, hc1, reduceCtorEq, false_iff]
      intro hr
      have hA := (hr.2 trivial).1
      rw [(checkRef_ok_iff "Loop" n.name (dictGet n.config "body") names).mpr hA] at hc1
      exact absurd hc1 (by simp)
    | ok u =>
      cases u
      have hA := (checkRef_ok_iff "Loop" n.name (dictGet n.config "body") names).mp hc1
      simp only [typeChecks, htype, hc1, reduceCtorEq]
      constructor
      · intro hb
        exact ⟨fun h => h.elim,
          fun _ =>
            ⟨hA, (checkRef_ok_iff "Loop" n.name (dictGet n.config "after") names).mp hb⟩⟩
      · intro hr
        exact (checkRef_ok_iff "Loop" n.name (dictGet n.config "after") names).mpr
          (hr.2 trivial).2

lemma validateNode_ok_iff (names : List String) (n : NodeDefinition) :
    validateNode names n = .ok () ↔
      ((∀ s, n.next = some s → s ≠ "" → names.contains s = true) ∧
       (n.type = .conditional →
         (truthy (dictGet n.config "on_true") = true →
           nameMember (dictGet n.config "on_true") names = true) ∧
         (truthy (dictGet n.config "on_false") = true →
           nameMember (dictGet n.config "on_false") names = true)) ∧
       (n.type = .loop →
         (truthy (dictGet n.config "body") = true →
           nameMember (dictGet n.config "body") names = true) ∧
         (truthy (dictGet n.config "after") = true →
           nameMember (dictGet n.config "after") names = true))) := by
  cases hnext : n.next with
  | none =>
    simp only [validateNode, hnext, typeChecks_ok_iff]
    constructor
    · intro h
      exact ⟨(by intro s hcontra; cases hcontra), h⟩
    · intro h
      exact h.2
  | some s =>
    by_cases hs : s ≠ "" ∧ ¬ names.contains s
    · simp only [validateNode, hnext]
      rw [if_pos hs]
      simp only [reduceCtorEq, false_iff]
      intro hr
      exact hs.2 (hr.1 s rfl hs.1)
    · simp only [validateNode, hnext]
      rw [if_neg hs]
      have h1 : ∀ s2, some s = some s2 → s2 ≠ "" → names.contains s2 = true := by
        intro s2 he hne
        cases he
        by_contra hm
        exact hs ⟨hne, hm⟩
      rw [typeChecks_ok_iff]
      constructor
      · intro h
        exact ⟨h1, h⟩
      · intro h
        exact h.2

lemma validateNodes_ok_iff (names : List String) (l : List NodeDefinition) :
    validateNodes names l = .ok () ↔ ∀ n ∈ l, validateNode names n = .ok () := by
  induction l with
  | nil => simp [validateNodes]
  | cons n rest ih =>
    constructor
    · intro h m hm
      cases hv : validateNode names n with
      | error e => rw [validateNodes, hv] at h; exact absurd h (by simp)
      | ok u =>
        cases u
        rw [validateNodes, hv] at h
        rcases List.mem_cons.mp hm with rfl | hm2
        · exact hv
        · exact ih.mp h m hm2
    · intro h
      have hv := h n (List.mem_cons_self n rest)
      rw [validateNodes, hv]
      exact ih.mpr (fun m hm => h m (List.mem_cons_of_mem n hm))

/-- C4 (counterexample). A definition whose two nodes share the name `a`
passes `validate_graph`: duplicate node names are not rejected, contrary
to the claim. -/
theorem validate_graph_duplicates_accepted :
    validate_graph dupGraph = .ok () ∧
    ¬ (dupGraph.nodes.map fun n => n.name).Nodup := by
  exact ⟨rfl, by decide⟩

/-- C4 (amended). `validate_graph` accepts a definition exactly when
`start_at` is a node name and every truthy cross-reference (`next`,
`on_true`/`on_false` of a conditional, `body`/`after` of a loop) names an
existing node; a falsy reference (absent, null or empty) is skipped and
duplicate node names are not examined at all. -/
theorem validate_graph_accepts_iff (g : GraphDefinition) :
    validate_graph g = .ok () ↔
      ((g.nodes.map fun n => n.name).contains g.start_at = true ∧
       ∀ n ∈ g.nodes,
         (∀ s, n.next = some s → s ≠ "" →
           (g.nodes.map fun n => n.name).contains s = true) ∧
         (n.type = .conditional →
           (truthy (dictGet n.config "on_true") = true →
             nameMember (dictGet n.config "on_true") (g.nodes.map fun n => n.name) = true) ∧
           (truthy (dictGet n.config "on_false") = true →
             nameMember (dictGet n.config "on_false") (g.nodes.map fun n => n.name) = true)) ∧
         (n.type = .loop →
           (truthy (dictGet n.config "body") = true →
             nameMember (dictGet n.config "body") (g.nodes.map fun n => n.name) = true) ∧
           (truthy (dictGet n.config "after") = true →
             nameMember (dictGet n.config "after") (g.nodes.map fun n => n.name) = true))) := by
  unfold validate_graph
  by_cases hstart : (g.nodes.map fun n => n.name).contains g.start_at = true
  · rw [if_neg (by simpa using hstart)]
    simp only [hstart, true_and, validateNodes_ok_iff]
    constructor
    · intro h n hn
      exact (validateNode_ok_iff _ n).mp (h n hn)
    · intro h n hn
      exact (validateNode_ok_iff _ n).mpr (h n hn)
  · rw [if_pos (by simpa using hstart)]
    constructor
    · intro hc
      exact absurd hc (by simp)
    · intro hr
      exact absurd hr.1 hstart

/-- Witness for C4's amended theorem: reading the acceptance condition
off the concretely accepted `dupGraph`. -/
theorem validate_graph_accepts_iff_witness :
    (dupGraph.nodes.map fun n => n.name).contains dupGraph.start_at = true :=
  ((validate_graph_accepts_iff dupGraph).mp rfl).1

/-- C1. Dispatch of a loop node: a `None`/absent `key` or `body` raises;
otherwise, with `op` defaulting to `"=="`, `max_iterations` defaulting to
`25` and the stored count defaulting to `0`, the comparison decides: when
it holds and the count is at the cap the successor is `after` with the
count not incremented; when it holds below the cap the count is
incremented and the successor is `body`; when it fails the successor is
`after` if that holds a truthy value, else `next`. -/
theorem loop_dispatch_semantics (node : NodeDefinition) (state : Dict)
    (lc : List (String × Int)) :
    ((dictGet node.config "key" = Value.none ∨ dictGet node.config "body" = Value.none) →
      evaluateLoop node state lc =
        .error ("Loop node '" ++ node.name ++ "' requires 'key' and 'body'")) ∧
    (dictGet node.config "key" ≠ Value.none → dictGet node.config "body" ≠ Value.none →
      ∀ c : Bool,
        compareVals (dictGetV state (dictGet node.config "key"))
          (dictGetD node.config "op" (.str "==")) (dictGet node.config "value") = .ok c →
        ((c = true →
            countAtCap (countGet lc node.name)
              (dictGetD node.config "max_iterations" (.int 25)) = .ok true →
            evaluateLoop node state lc = .ok (dictGet node.config "after", lc)) ∧
         (c = true →
            countAtCap (countGet lc node.name)
              (dictGetD node.config "max_iterations" (.int 25)) = .ok false →
            evaluateLoop node state lc =
              .ok (dictGet node.config "body",
                   countSet lc node.name (countGet lc node.name + 1))) ∧
         (c = false → truthy (dictGet node.config "after") = true →
            evaluateLoop node state lc = .ok (dictGet node.config "after", lc)) ∧
         (c = false → truthy (dictGet node.config "after") = false →
            evaluateLoop node state lc = .ok (optStr node.next, lc)))) := by
  constructor
  · intro h
    simp only [evaluateLoop]
    rw [if_pos h]
  · intro hk hb c hc
    have hcond : ¬ (dictGet node.config "key" = Value.none ∨
        dictGet node.config "body" = Value.none) := by
      rintro (h | h)
      · exact hk h
      · exact hb h
    refine ⟨?_, ?_, ?_, ?_⟩
    · rintro rfl hcap
      simp only [evaluateLoop]
      rw [if_neg hcond]
      simp only [hc, hcap, if_true]
    · rintro rfl hcap
      simp only [evaluateLoop]
      rw [if_neg hcond]
      simp only [hc, hcap, if_true, Bool.false_eq_true, if_false]
    · rintro rfl hafter
      simp only [evaluateLoop]
      rw [if_neg hcond]
      simp only [hc, Bool.false_eq_true, if_false, pyOr, hafter, if_true]
    · rintro rfl hafter
      simp only [evaluateLoop]
      rw [if_neg hcond]
      simp only [hc, Bool.false_eq_true, if_false, pyOr, hafter]

/-- Witness for C1: the body branch on a concrete loop node — the count
is created at 1 and the successor is the configured body. -/
theorem loop_dispatch_semantics_witness :
    evaluateLoop loopWitnessNode [("x", .int 1)] [] = .ok (.str "B", [("L", 1)]) := by
  have h := ((loop_dispatch_semantics loopWitnessNode [("x", .int 1)] []).2
    (by decide) (by decide) true rfl).2.1 rfl rfl
  simpa using h

/-- The structural invariant of the interpreter loop: a terminating
`execLoop` preserves the run identifier, clears `current_node`, and
extends the log and the event trace by a sequence of complete visits whose
snapshots chain through the states, closed off either by completion or by
one unmatched visit head and the failure records. -/
lemma execLoop_master (tools : ToolRegistry) (nodes : List NodeDefinition) :
    ∀ (fuel : Nat) (current : Value) (rs rs' : RunState) (err : Option String),
      execLoop tools nodes fuel current rs = some (rs', err) →
      rs'.run_id = rs.run_id ∧ rs'.current_node = Value.none ∧
      ∃ visits : List Visit,
        chainOk rs.state visits rs'.state ∧
        ((err = Option.none ∧ rs'.status = RunStatus.completed ∧
            rs'.log = rs.log ++ visits.flatMap visitLog ∧
            rs'.events = rs.events ++ visits.flatMap visitEvents ++
              [Event.run_completed rs.run_id rs'.state]) ∨
         (∃ e nv, err = some e ∧ truthy nv = true ∧ rs'.status = RunStatus.failed ∧
            rs'.log = rs.log ++ visits.flatMap visitLog ++
              [⟨nv, "start", Option.none, rs'.state⟩,
               ⟨nv, "error", some e, rs'.state⟩] ∧
            rs'.events = rs.events ++ visits.flatMap visitEvents ++
              [Event.node_start nv rs'.state, Event.run_failed rs.run_id e])) := by
  intro fuel
  induction fuel with
  | zero =>
    intro current rs rs' err h
    simp only [execLoop] at h
    by_cases hcur : truthy current = true
    · rw [if_pos hcur] at h
      exact absurd h (by simp)
    · rw [if_neg hcur] at h
      obtain ⟨rfl, rfl⟩ : finishRun rs = rs' ∧ Option.none = err := by
        simpa [eq_comm] using h
      refine ⟨by simp, by simp, [], by simp [chainOk], Or.inl ⟨rfl, by simp, by simp, ?_⟩⟩
      simp
  | succ fuel ih =>
    intro current rs rs' err h
    simp only [execLoop, stepVisitStart_state, stepVisitStart_loop_counts] at h
    by_cases hcur : truthy current = true
    · rw [if_pos hcur] at h
      split at h
      next e hl =>
        obtain ⟨rfl, rfl⟩ :
            failRun (stepVisitStart current rs) current e = rs' ∧ some e = err := by
          simpa [eq_comm] using h
        refine ⟨by simp, by simp, [], by simp [chainOk],
          Or.inr ⟨e, current, rfl, hcur, by simp, ?_, ?_⟩⟩
        · simp [pyOr, hcur]
        · simp
      next node hl =>
        have hcs := nodeLookup_ok_name hl
        split at h
        next e he =>
          obtain ⟨rfl, rfl⟩ :
              failRun (stepVisitStart current rs) current e = rs' ∧ some e = err := by
            simpa [eq_comm] using h
          refine ⟨by simp, by simp, [], by simp [chainOk],
            Or.inr ⟨e, current, rfl, hcur, by simp, ?_, ?_⟩⟩
          · simp [pyOr, hcur]
          · simp
        next succ state2 lc2 he =>
          obtain ⟨hrid, hcn, visits, hchain, hcase⟩ :=
            ih succ (stepVisitEnd node state2 lc2 (stepVisitStart current rs)) rs' err h
          subst hcs
          refine ⟨by simpa using hrid, hcn,
            (Value.str node.name, rs.state, state2) :: visits, ⟨rfl, ?_⟩, ?_⟩
          · simpa using hchain
          · rcases hcase with ⟨herr, hst, hlog, hev⟩ | ⟨e, nv, herr, hnv, hst, hlog, hev⟩
            · refine Or.inl ⟨herr, hst, ?_, ?_⟩
              · rw [hlog]
                simp [visitLog, List.flatMap_cons, List.append_assoc]
              · rw [hev]
                simp [visitEvents, List.flatMap_cons, List.append_assoc]
            · refine Or.inr ⟨e, nv, herr, hnv, hst, ?_, ?_⟩
              · rw [hlog]
                simp [visitLog, List.flatMap_cons, List.append_assoc]
              · rw [hev]
                simp [visitEvents, List.flatMap_cons, List.append_assoc]
    · rw [if_neg hcur] at h
      obtain ⟨rfl, rfl⟩ : finishRun rs = rs' ∧ Option.none = err := by
        simpa [eq_comm] using h
      refine ⟨by simp, by simp, [], by simp [chainOk], Or.inl ⟨rfl, by simp, by simp, ?_⟩⟩
      simp

lemma getLast?_append_pair {α : Type} (l : List α) (a b : α) :
    (l ++ [a, b]).getLast? = some b := by
  rw [show l ++ [a, b] = (l ++ [a]) ++ [b] by simp]
  exact List.getLast?_concat _

/-- C3. When a terminating run re-raises a failure (`err = some e`, the
exception any synchronous waiter observes), the run's status is `failed`,
the last log entry has phase `error` and carries the failure message and
the last-known state snapshot, and the last published event is
`run_failed` with the error text. Moreover a tool node naming an
unregistered tool raises exactly the message that names the missing tool,
so in that case the error entry's message names it. -/
theorem run_failure_reporting (tools : ToolRegistry) (graph : GraphDefinition)
    (fuel : Nat) (rs rs' : RunState) (e : String)
    (hrun : execute tools graph fuel rs = some (rs', some e)) :
    rs'.status = RunStatus.failed ∧
    (∃ nv, rs'.log.getLast? = some ⟨nv, "error", some e, rs'.state⟩) ∧
    rs'.events.getLast? = some (Event.run_failed rs.run_id e) ∧
    (∀ (nm : String) (st : Dict), tools.lookup nm = Option.none →
      invokeTool tools (.str nm) st =
        .error ("Tool '" ++ nm ++ "' is not registered")) := by
  simp only [execute] at hrun
  obtain ⟨hrid, hcn, visits, hchain, hcase⟩ :=
    execLoop_master tools graph.nodes fuel (.str graph.start_at) _ rs' (some e) hrun
  rcases hcase with ⟨herr, _⟩ | ⟨e2, nv, herr, hnv, hst, hlog, hev⟩
  · exact absurd herr (by simp)
  · have he2 : e = e2 := by injection herr
    subst he2
    refine ⟨hst, ⟨nv, ?_⟩, ?_, ?_⟩
    · rw [hlog]
      exact getLast?_append_pair _ _ _
    · rw [hev]
      have := getLast?_append_pair (α := Event)
        ((publish { rs with status := RunStatus.running }
          (Event.run_started rs.run_id)).events ++ visits.flatMap visitEvents)
        (Event.node_start nv rs'.state)
        (Event.run_failed
          (publish { rs with status := RunStatus.running }
            (Event.run_started rs.run_id)).run_id e)
      simpa using this
    · intro nm st hmiss
      simp [invokeTool, hmiss]

/-- Witness for C3: the unregistered-tool run — status `failed` and the
error entry naming the missing tool is last. -/
theorem run_failure_reporting_witness :
    failFinal.status = RunStatus.failed ∧
    (∃ nv, failFinal.log.getLast? =
      some ⟨nv, "error", some "Tool 'nosuch' is not registered", failFinal.state⟩) := by
  have h := run_failure_reporting [] failGraph 5
    (initialRunState "r" failGraph []) failFinal "Tool 'nosuch' is not registered" rfl
  exact ⟨h.1, h.2.1⟩

/-- C7. Within one terminating run the published events are totally
ordered by execution order: `run_started` is the first event; the visits
contribute `node_start`/`node_end` pairs in execution order, so each
`node_start` precedes its matching `node_end` and is matched by exactly
one `node_end`, except that a failing visit's `node_start` is superseded
by `run_failed`; and the terminal `run_completed`/`run_failed` event is
always last. -/
theorem event_ordering (tools : ToolRegistry) (graph : GraphDefinition)
    (fuel : Nat) (rs rs' : RunState) (err : Option String)
    (hfresh : rs.events = []) (hfreshlog : rs.log = [])
    (hrun : execute tools graph fuel rs = some (rs', err)) :
    ∃ visits : List Visit,
      (err = Option.none →
        rs'.log = visits.flatMap visitLog ∧
        rs'.events = Event.run_started rs.run_id ::
          (visits.flatMap visitEvents ++ [Event.run_completed rs.run_id rs'.state])) ∧
      (∀ e, err = some e →
        ∃ nv, rs'.log = visits.flatMap visitLog ++
            [⟨nv, "start", Option.none, rs'.state⟩,
             ⟨nv, "error", some e, rs'.state⟩] ∧
          rs'.events = Event.run_started rs.run_id ::
            (visits.flatMap visitEvents ++
              [Event.node_start nv rs'.state, Event.run_failed rs.run_id e])) := by
  simp only [execute] at hrun
  obtain ⟨hrid, hcn, visits, hchain, hcase⟩ :=
    execLoop_master tools graph.nodes fuel (.str graph.start_at) _ rs' err hrun
  refine ⟨visits, ?_, ?_⟩
  · rintro rfl
    rcases hcase with ⟨_, _, hlog, hev⟩ | ⟨e2, nv, herr, _⟩
    · constructor
      · rw [hlog]
        simp [hfreshlog]
      · rw [hev]
        simp [hfresh]
    · exact absurd herr (by simp)
  · rintro e rfl
    rcases hcase with ⟨herr, _⟩ | ⟨e2, nv, herr, hnv, hst, hlog, hev⟩
    · exact absurd herr (by simp)
    · have he2 : e = e2 := by injection herr
      subst he2
      refine ⟨nv, ?_, ?_⟩
      · rw [hlog]
        simp [hfreshlog]
      · rw [hev]
        simp [hfresh]

/-- Witness for C7: the capped self-loop run's trace is `run_started`,
two complete visits, `run_completed` last. -/
theorem event_ordering_witness :
    ∃ visits : List Visit,
      cappedLoopFinal.events = Event.run_started "r" ::
        (visits.flatMap visitEvents ++
          [Event.run_completed "r" cappedLoopFinal.state]) := by
  obtain ⟨visits, hc, _⟩ := event_ordering [] cappedLoopGraph 5
    (initialRunState "r" cappedLoopGraph [("x", .int 1)]) cappedLoopFinal Option.none
    rfl rfl rfl
  exact ⟨visits, (hc rfl).2⟩

/-- C10. A terminating run ends terminal with `current_node = None`: the
status is `completed` or `failed`, it is `completed` exactly when no
failure is re-raised, and the two termination paths of the interpreter —
`finishRun` and the handler `failRun` — each set `current_node` to `None`
in the same step that sets the terminal status. After this return the
interpreter touches the run no further, so the terminal status and log
are final. -/
theorem terminal_state_shape (tools : ToolRegistry) (graph : GraphDefinition)
    (fuel : Nat) (rs rs' : RunState) (err : Option String)
    (hrun : execute tools graph fuel rs = some (rs', err)) :
    rs'.current_node = Value.none ∧
    (rs'.status = RunStatus.completed ∨ rs'.status = RunStatus.failed) ∧
    (err = Option.none ↔ rs'.status = RunStatus.completed) ∧
    (∀ r : RunState, (finishRun r).current_node = Value.none ∧
      (finishRun r).status = RunStatus.completed) ∧
    (∀ (r : RunState) (c : Value) (e : String),
      (failRun r c e).current_node = Value.none ∧
      (failRun r c e).status = RunStatus.failed) := by
  simp only [execute] at hrun
  obtain ⟨hrid, hcn, visits, hchain, hcase⟩ :=
    execLoop_master tools graph.nodes fuel (.str graph.start_at) _ rs' err hrun
  refine ⟨hcn, ?_, ?_, fun r => ⟨by simp, by simp⟩, fun r c e => ⟨by simp, by simp⟩⟩
  · rcases hcase with ⟨_, hst, _⟩ | ⟨_, _, _, _, hst, _⟩
    · exact Or.inl hst
    · exact Or.inr hst
  · rcases hcase with ⟨herr, hst, _⟩ | ⟨e2, nv, herr, _, hst, _⟩
    · rw [herr, hst]
      simp
    · rw [herr, hst]
      simp

/-- Witness for C10: the capped self-loop run ends with `current_node`
cleared. -/
theorem terminal_state_shape_witness : cappedLoopFinal.current_node = Value.none :=
  (terminal_state_shape [] cappedLoopGraph 5
    (initialRunState "r" cappedLoopGraph [("x", .int 1)]) cappedLoopFinal Option.none
    rfl).1

/-- C6 (counterexample). The snapshot the engine takes is `dict(state)`, a
shallow copy: after a tool mutates the nested object `obj` in place
(`y: 1 ↦ 2`), the previously taken snapshot reads `y = 2` — it changed —
whereas a deep snapshot taken before the mutation had materialised
`y = 1`. So a later mutation of a nested value does change a previously
appended snapshot, contrary to the claim. -/
theorem snapshot_shallow_leaks :
    resolveDict aliasHeapMutated (snapshotShallow aliasState) ≠
      resolveDict aliasHeap (snapshotShallow aliasState) ∧
    resolveDict aliasHeapMutated (snapshotShallow aliasState) =
      [("obj", .dict [("y", .int 2)])] ∧
    deepSnapshot aliasHeap aliasState = [("obj", .dict [("y", .int 1)])] := by
  refine ⟨by decide, rfl, rfl⟩

lemma resolveHValue_heapWrite_ne (h : Heap) (r : Nat) (d : List (String × Value))
    (hv : HValue) (hne : ∀ q, hv = HValue.ref q → q ≠ r) :
    resolveHValue (heapWrite h r d) hv = resolveHValue h hv := by
  cases hv with
  | prim v => rfl
  | ref q =>
    have hq := hne q rfl
    simp [resolveHValue, heapWrite, List.getD_eq_getElem?_getD,
      List.getElem?_set_ne (Ne.symm hq)]

/-- C6 (amended). Every appended snapshot equals the state bag's value at
that instant — for every visit the `start` entry's snapshot is the state
before dispatch and the `end` entry's the state after, snapshots chaining
through the run — but the copy is shallow: its readout is unchanged by
anything that does not touch a nested object it shares (first and second
conjuncts), while an in-place mutation of a shared nested object does
change previously appended snapshots (the counterexample). -/
theorem snapshot_semantics (tools : ToolRegistry) (graph : GraphDefinition)
    (fuel : Nat) (rs rs' : RunState) (err : Option String)
    (hrun : execute tools graph fuel rs = some (rs', err)) :
    (∃ visits : List Visit,
      chainOk rs.state visits rs'.state ∧
      (rs'.log = rs.log ++ visits.flatMap visitLog ∨
       ∃ e nv, rs'.log = rs.log ++ visits.flatMap visitLog ++
         [⟨nv, "start", Option.none, rs'.state⟩,
          ⟨nv, "error", some e, rs'.state⟩])) ∧
    (∀ (h : Heap) (r : Nat) (d : List (String × Value)) (s : HDict),
      (∀ q, HValue.ref q ∈ s.map Prod.snd → q ≠ r) →
      resolveDict (heapWrite h r d) (snapshotShallow s) =
        resolveDict h (snapshotShallow s)) := by
  constructor
  · simp only [execute] at hrun
    obtain ⟨hrid, hcn, visits, hchain, hcase⟩ :=
      execLoop_master tools graph.nodes fuel (.str graph.start_at) _ rs' err hrun
    refine ⟨visits, by simpa using hchain, ?_⟩
    rcases hcase with ⟨_, _, hlog, _⟩ | ⟨e, nv, _, _, _, hlog, _⟩
    · exact Or.inl (by simpa using hlog)
    · exact Or.inr ⟨e, nv, by simpa using hlog⟩
  · intro h r d s href
    unfold snapshotShallow resolveDict
    apply List.map_congr_left
    intro p hp
    simp only [Prod.mk.injEq, true_and]
    exact resolveHValue_heapWrite_ne h r d p.2
      (fun q hq => href q (hq ▸ List.mem_map_of_mem Prod.snd hp))

/-- Witness for C6's amended theorem: a heap write to an unreferenced
cell leaves the shallow snapshot's readout unchanged. -/
theorem snapshot_semantics_witness :
    resolveDict (heapWrite aliasHeap 1 [("z", .int 9)]) (snapshotShallow aliasState) =
      resolveDict aliasHeap (snapshotShallow aliasState) := by
  have h := snapshot_semantics [] cappedLoopGraph 5
    (initialRunState "r" cappedLoopGraph [("x", .int 1)]) cappedLoopFinal Option.none rfl
  refine h.2 aliasHeap 1 [("z", .int 9)] aliasState ?_
  intro q hq
  simp only [aliasState, List.map_cons, List.map_nil, List.mem_singleton] at hq
  cases hq
  decide

/-! ### The loop-count invariant (C5) -/

lemma lookup_map_replace (lc : List (String × Int)) (n : String) (v : Int) :
    (lc.map (fun p => if p.1 = n then (n, v) else p)).lookup n =
      if (lc.lookup n).isSome then some v else Option.none := by
  induction lc with
  | nil => simp
  | cons p t ih =>
    obtain ⟨k, w⟩ := p
    by_cases hk : k = n
    · subst hk
      simp [List.lookup_cons]
    · have hbeq : (n == k) = false := by simp [Ne.symm hk]
      simp only [List.map_cons, if_neg hk, List.lookup_cons, hbeq, ih]

lemma lookup_map_replace_ne (lc : List (String × Int)) (n m : String) (v : Int)
    (hne : m ≠ n) :
    (lc.map (fun p => if p.1 = n then (n, v) else p)).lookup m = lc.lookup m := by
  induction lc with
  | nil => simp
  | cons p t ih =>
    obtain ⟨k, w⟩ := p
    by_cases hk : k = n
    · have hb1 : (m == n) = false := by simp [hne]
      have hb2 : (m == k) = false := by
        have hmk : m ≠ k := fun hmk => hne (hmk.trans hk)
        simp [hmk]
      simp only [List.map_cons, if_pos hk, List.lookup_cons, hb1, hb2, ih]
    · cases hmk : (m == k) <;>
        simp only [List.map_cons, if_neg hk, List.lookup_cons, hmk, ih]

lemma lookup_countSet_self (lc : List (String × Int)) (n : String) (v : Int) :
    (countSet lc n v).lookup n = some v := by
  unfold countSet
  by_cases h : (lc.lookup n).isSome
  · rw [if_pos h, lookup_map_replace, if_pos h]
  · rw [if_neg h, List.lookup_append]
    have hnone : lc.lookup n = Option.none := by
      cases hl : lc.lookup n
      · rfl
      · rw [hl] at h; simp at h
    rw [hnone]
    simp [List.lookup_cons]

lemma lookup_countSet_other (lc : List (String × Int)) (n m : String) (v : Int)
    (hne : m ≠ n) :
    (countSet lc n v).lookup m = lc.lookup m := by
  unfold countSet
  by_cases h : (lc.lookup n).isSome
  · rw [if_pos h, lookup_map_replace_ne lc n m v hne]
  · rw [if_neg h, List.lookup_append]
    have hsingle : List.lookup m [(n, v)] = Option.none := by
      have hb : (m == n) = false := by simp [hne]
      simp [List.lookup_cons, hb]
    rw [hsingle]
    cases lc.lookup m <;> rfl

lemma evaluateLoop_preserves_bounded {nodes : List NodeDefinition}
    {node : NodeDefinition} {state : Dict} {lc lc2 : List (String × Int)} {succ : Value}
    (hnode : nodeLookup nodes (.str node.name) = .ok node)
    (hinv : loopCountsBounded nodes lc)
    (h : evaluateLoop node state lc = .ok (succ, lc2)) :
    loopCountsBounded nodes lc2 := by
  simp only [evaluateLoop] at h
  split at h
  · exact absurd h (by simp)
  · split at h
    next e hcmp => exact absurd h (by simp)
    next continueLoop hcmp =>
      split at h
      · split at h
        next e hcap => exact absurd h (by simp)
        next capped hcap =>
          split at h
          · obtain ⟨h1, h2⟩ : dictGet node.config "after" = succ ∧ lc = lc2 := by
              simpa using h
            rw [← h2]
            exact hinv
          · obtain ⟨h1, h2⟩ : dictGet node.config "body" = succ ∧
                countSet lc node.name (countGet lc node.name + 1) = lc2 := by
              simpa using h
            rename_i hcapfalse
            have hcapf : capped = false := by
              cases capped
              · rfl
              · exact absurd rfl hcapfalse
            subst hcapf
            obtain ⟨m, hpn, hlt⟩ : ∃ m,
                pyNum (dictGetD node.config "max_iterations" (.int 25)) = some m ∧
                  countGet lc node.name < m := by
              unfold countAtCap at hcap
              cases hpn : pyNum (dictGetD node.config "max_iterations" (.int 25)) with
              | none => rw [hpn] at hcap; exact absurd hcap (by simp)
              | some m =>
                rw [hpn] at hcap
                refine ⟨m, rfl, ?_⟩
                have : decide (m ≤ countGet lc node.name) = false := by
                  simpa using hcap
                simpa using of_decide_eq_false this
            rw [← h2]
            intro name v hv
            by_cases hnm : name = node.name
            · subst hnm
              rw [lookup_countSet_self] at hv
              obtain rfl : countGet lc node.name + 1 = v := by simpa using hv
              exact ⟨node, m, hnode, hpn, by omega⟩
            · rw [lookup_countSet_other _ _ _ _ hnm] at hv
              exact hinv name v hv
      · obtain ⟨h1, h2⟩ : pyOr (dictGet node.config "after") (optStr node.next) = succ ∧
            lc = lc2 := by simpa using h
        rw [← h2]
        exact hinv

lemma executeNode_preserves_bounded {tools : ToolRegistry} {nodes : List NodeDefinition}
    {node : NodeDefinition} {state state2 : Dict} {lc lc2 : List (String × Int)}
    {succ : Value}
    (hnode : nodeLookup nodes (.str node.name) = .ok node)
    (hinv : loopCountsBounded nodes lc)
    (h : executeNode tools node state lc = .ok (succ, state2, lc2)) :
    loopCountsBounded nodes lc2 := by
  simp only [executeNode] at h
  split at h
  · split at h
    · exact absurd h (by simp)
    · split at h
      next e hi => exact absurd h (by simp)
      next st2 hi =>
        obtain ⟨h1, h2, h3⟩ : optStr node.next = succ ∧ st2 = state2 ∧ lc = lc2 := by
          simpa using h
        rw [← h3]
        exact hinv
  · split at h
    next e hc => exact absurd h (by simp)
    next sc hc =>
      obtain ⟨h1, h2, h3⟩ : sc = succ ∧ state = state2 ∧ lc = lc2 := by simpa using h
      rw [← h3]
      exact hinv
  · split at h
    next e hl => exact absurd h (by simp)
    next sc lc3 hl =>
      obtain ⟨h1, h2, h3⟩ : sc = succ ∧ state = state2 ∧ lc3 = lc2 := by simpa using h
      rw [← h3]
      exact evaluateLoop_preserves_bounded hnode hinv hl

lemma execLoop_preserves_bounded (tools : ToolRegistry) (nodes : List NodeDefinition) :
    ∀ (fuel : Nat) (current : Value) (rs rs' : RunState) (err : Option String),
      loopCountsBounded nodes rs.loop_counts →
      execLoop tools nodes fuel current rs = some (rs', err) →
      loopCountsBounded nodes rs'.loop_counts := by
  intro fuel
  induction fuel with
  | zero =>
    intro current rs rs' err hinv h
    simp only [execLoop] at h
    by_cases hcur : truthy current = true
    · rw [if_pos hcur] at h
      exact absurd h (by simp)
    · rw [if_neg hcur] at h
      obtain ⟨rfl, rfl⟩ : finishRun rs = rs' ∧ Option.none = err := by
        simpa [eq_comm] using h
      simpa using hinv
  | succ fuel ih =>
    intro current rs rs' err hinv h
    simp only [execLoop, stepVisitStart_state, stepVisitStart_loop_counts] at h
    by_cases hcur : truthy current = true
    · rw [if_pos hcur] at h
      split at h
      next e hl =>
        obtain ⟨rfl, rfl⟩ :
            failRun (stepVisitStart current rs) current e = rs' ∧ some e = err := by
          simpa [eq_comm] using h
        simpa using hinv
      next node hl =>
        split at h
        next e he =>
          obtain ⟨rfl, rfl⟩ :
              failRun (stepVisitStart current rs) current e = rs' ∧ some e = err := by
            simpa [eq_comm] using h
          simpa using hinv
        next succ state2 lc2 he =>
          have hcs := nodeLookup_ok_name hl
          have hnode : nodeLookup nodes (.str node.name) = .ok node := by
            rw [← hcs]; exact hl
          have hinv2 := executeNode_preserves_bounded hnode hinv he
          exact ih succ (stepVisitEnd node state2 lc2 (stepVisitStart current rs)) rs' err
            (by simpa using hinv2) h
    · rw [if_neg hcur] at h
      obtain ⟨rfl, rfl⟩ : finishRun rs = rs' ∧ Option.none = err := by
        simpa [eq_comm] using h
      simpa using hinv

/-- C5. For a terminating run whose incoming loop counts respect the cap
(in particular a fresh run's empty counts), every count stored in the
final `loop_counts` stays at or below its loop node's numeric
`max_iterations` (default 25) — the count never exceeds the cap. And when
the condition still holds at the cap, the dispatch returns `after`
normally (an `ok`, not an exception) with the counts unchanged: the forced
exit does not mark the run failed. -/
theorem loop_cap_invariant (tools : ToolRegistry) (graph : GraphDefinition)
    (fuel : Nat) (rs rs' : RunState) (err : Option String)
    (hinv : loopCountsBounded graph.nodes rs.loop_counts)
    (hrun : execute tools graph fuel rs = some (rs', err)) :
    loopCountsBounded graph.nodes rs'.loop_counts ∧
    (∀ (node : NodeDefinition) (state : Dict) (lc : List (String × Int)),
      dictGet node.config "key" ≠ Value.none →
      dictGet node.config "body" ≠ Value.none →
      compareVals (dictGetV state (dictGet node.config "key"))
        (dictGetD node.config "op" (.str "==")) (dictGet node.config "value") = .ok true →
      countAtCap (countGet lc node.name)
        (dictGetD node.config "max_iterations" (.int 25)) = .ok true →
      evaluateLoop node state lc = .ok (dictGet node.config "after", lc)) := by
  constructor
  · simp only [execute] at hrun
    exact execLoop_preserves_bounded tools graph.nodes fuel (.str graph.start_at) _ rs' err
      (by simpa using hinv) hrun
  · intro node state lc hk hb hcmp hcap
    have hcond : ¬ (dictGet node.config "key" = Value.none ∨
        dictGet node.config "body" = Value.none) := by
      rintro (hcontra | hcontra)
      · exact hk hcontra
      · exact hb hcontra
    simp only [evaluateLoop]
    rw [if_neg hcond]
    simp only [hcmp, if_true, hcap]

/-- Witness for C5: the capped self-loop run ends with its count stored
at the cap (1 ≤ 1), and a loop node capped at 0 exits to its absent
`after` on the first visit without an exception. -/
theorem loop_cap_invariant_witness :
    loopCountsBounded cappedLoopGraph.nodes cappedLoopFinal.loop_counts ∧
    evaluateLoop cappedLoopNode [("x", .int 1)] [] = .ok (Value.none, []) := by
  have h := loop_cap_invariant [] cappedLoopGraph 5
    (initialRunState "r" cappedLoopGraph [("x", .int 1)]) cappedLoopFinal Option.none
    (by intro name v hv; simp [initialRunState] at hv) rfl
  exact ⟨h.1, h.2 cappedLoopNode [("x", .int 1)] [] (by decide) (by decide) rfl rfl⟩

end GraphExec
